import Mathlib

/-!
Shallow embedding of the metric-computation engine of `ocf-ml-metrics`
(`ocf_ml_metrics/metrics/errors.py`, `ocf_ml_metrics/metrics/utils.py`,
`ocf_ml_metrics/baselines/simple.py`) together with theorems settling the
specification claims about it.

Modelling conventions:
* numpy float arrays are `List ℚ` (an exact idealisation of the float values;
  no claim here depends on rounding);
* a `pd.Timestamp` is a record carrying the attributes the code reads from it:
  an absolute time in seconds (for `Timestamp` subtraction) plus the `.hour`
  and `.month` fields;
* a Python dict of metrics is an association list; `dict.update` is modelled
  by appending, and lookup (`rget`) takes the *last* binding of a key, which
  gives exactly Python's overwrite semantics for lookups and key sets;
* `np.sqrt x` is kept symbolically as the metric value `MV.root x` (meaning
  `Real.sqrt x`); `np.mean` of an empty array is the value `MV.nan`;
* a Python function that may raise is `Except String _`, the error string
  naming the exception;
* `pvlib.solarposition.get_solarposition(...)["elevation"]` is an opaque
  per-timestamp function `gse : TS → ℚ → ℚ → ℚ` (timestamp, latitude,
  longitude ↦ elevation), passed as an explicit parameter.
-/

namespace OcfMlMetrics

/-- Model of a `pd.Timestamp`: absolute time in seconds together with the
calendar attributes the code reads (`.hour`, `.month`). -/
structure TS where
  epoch : Int
  hour : Nat
  month : Nat
deriving DecidableEq, Repr, Inhabited

/-- A value stored in a metrics dictionary: a rational number, a symbolic
square root `root x` (the value `np.sqrt x`), an integer count, or the float
`nan` (what `np.mean` of an empty array returns). -/
inductive MV where
  | num (x : ℚ)
  | root (x : ℚ)
  | cnt (n : Nat)
  | nan
deriving DecidableEq, Repr

/-- A Python metrics dict: an association list, later bindings overriding
earlier ones. -/
abbrev Rec := List (String × MV)

/-- `dict.update`: the bindings of `e` are laid down after those of `d`, so a
lookup finds `e`'s value for any key present in both. -/
def rupdate (d e : Rec) : Rec := d ++ e

/-- Dictionary lookup, last binding wins (Python overwrite semantics). -/
def rget (d : Rec) (k : String) : Option MV :=
  d.foldl (fun acc e => if e.1 = k then some e.2 else acc) none

/-- The keys of a metrics dict (with multiplicity; membership is what the
theorems use, matching Python's `key in dict`). -/
def rkeys (d : Rec) : List String := d.map (·.1)

/-- The re-keying loops in `compute_metrics`
(`metrics[pre + key] = metrics.pop(key)` over all keys): every key gains the
prefix `pre`, values unchanged. -/
def prefixAll (pre : String) (d : Rec) : Rec :=
  d.map (fun e => (pre ++ e.1, e.2))

/-- Rendering of a Python number in an f-string; integral values print with no
fractional part (the thresholds exercised by the repo are integers). -/
def qstr (q : ℚ) : String :=
  if q.den = 1 then toString q.num else toString q

/-! ### numpy primitives -/

/-- `np.mean` of a 1-D array: `nan` on an empty array, otherwise the average. -/
def npMeanMV (l : List ℚ) : MV :=
  if l.isEmpty then MV.nan else MV.num (l.sum / l.length)

/-- `np.sqrt (np.mean l)` of a 1-D array, the square root kept symbolic. -/
def npSqrtMeanMV (l : List ℚ) : MV :=
  if l.isEmpty then MV.nan else MV.root (l.sum / l.length)

/-- numpy subtraction of two 1-D arrays, with numpy's broadcasting rule:
equal lengths subtract elementwise, a length-1 operand broadcasts, anything
else raises `ValueError`. -/
def npSub (p t : List ℚ) : Except String (List ℚ) :=
  if p.length = t.length then Except.ok (List.zipWith (· - ·) p t)
  else if p.length = 1 then Except.ok (t.map (fun x => p.headD 0 - x))
  else if t.length = 1 then Except.ok (p.map (fun x => x - t.headD 0))
  else Except.error "ValueError: operands could not be broadcast together"

/-! ### Metric kernel (`common_metrics`, errors.py lines 10–38), 1-D path.

`common_metrics` is used inside the aggregator only on equal-length arrays
(the aggregator asserts this up front and every segmenter selects the same
indices from predictions and target), so the in-engine embedding subtracts by
`zipWith`.  The full numpy behaviour on arbitrary shapes — broadcasting or
raising — is `common_metricsNp` below, related to this one by
`common_metricsNp_eq_ok`. -/

def common_metrics (p t : List ℚ) (tag : String) : Rec :=
  let diffs := List.zipWith (· - ·) p t
  [(tag ++ "mae", npMeanMV (diffs.map (fun x => |x|))),
   (tag ++ "rmse", npSqrtMeanMV (diffs.map (fun x => x * x)))]

/-- `common_metrics` with numpy's actual subtraction semantics for 1-D inputs
of any lengths: raises on a non-broadcastable mismatch, and on empty input the
means are `nan` (numpy warns but returns `nan`, it does not raise). -/
def common_metricsNp (p t : List ℚ) (tag : String) :
    Except String Rec := do
  let diffs ← npSub p t
  Except.ok
    [(tag ++ "mae", npMeanMV (diffs.map (fun x => |x|))),
     (tag ++ "rmse", npSqrtMeanMV (diffs.map (fun x => x * x)))]

theorem common_metricsNp_eq_ok (p t : List ℚ) (tag : String)
    (h : p.length = t.length) :
    common_metricsNp p t tag = Except.ok (common_metrics p t tag) := by
  simp [common_metricsNp, npSub, common_metrics, h, Bind.bind, Except.bind]

/-! ### Metric kernel, 2-D path.

For input of shape `(N, D)` with `D > 1`, `_mean` computes
`np.mean(input, axis=0)`: a length-`D` vector of column means.  Rows are
`List ℚ` of length `D`. -/

/-- A vector-valued metric entry for the 2-D kernel path: a vector of
rationals or a vector of symbolic square roots (elementwise `np.sqrt`). -/
inductive MV2 where
  | vnum (xs : List ℚ)
  | vroot (xs : List ℚ)
deriving DecidableEq, Repr

/-- `np.mean(rows, axis=0)` for an `(N, D)` array: the length-`D` vector of
column means. -/
def npMeanAxis0 (rows : List (List ℚ)) (D : Nat) : List ℚ :=
  (List.range D).map (fun j => (rows.map (fun r => r.getD j 0)).sum / rows.length)

/-- Elementwise subtraction of two `(N, D)` arrays. -/
def npSub2 (p t : List (List ℚ)) : List (List ℚ) :=
  List.zipWith (List.zipWith (· - ·)) p t

/-- The 2-D path of `common_metrics`: `len(predictions.shape) > 1`, so `_mean`
averages over axis 0 only, and `np.sqrt` applies elementwise to the RMSE
vector. -/
def common_metrics2 (p t : List (List ℚ)) (D : Nat) (tag : String) :
    List (String × MV2) :=
  let diffs := npSub2 p t
  [(tag ++ "mae", MV2.vnum (npMeanAxis0 (diffs.map (fun r => r.map (fun x => |x|))) D)),
   (tag ++ "rmse", MV2.vroot (npMeanAxis0 (diffs.map (fun r => r.map (fun x => x * x))) D))]

/-! ### Segmenters (errors.py lines 41–151) -/

/-- Default `hour_split` of `compute_metrics_part_of_day`. -/
def default_hour_split : List (String × List Nat) :=
  [("Night", [21, 22, 23, 0, 1, 2, 3]),
   ("Morning", [4, 5, 6, 7, 8, 9]),
   ("Afternoon", [10, 11, 12, 13, 14, 15]),
   ("Evening", [16, 17, 18, 19, 20])]

/-- Default `year_split` of `compute_metrics_part_of_year`. -/
def default_year_split : List (String × List Nat) :=
  [("Winter", [12, 1, 2]),
   ("Spring", [3, 4, 5]),
   ("Summer", [6, 7, 8]),
   ("Fall", [9, 10, 11])]

/-- numpy fancy indexing `xs[split_dates]` with an index list known to be in
range (the engine only builds in-range index lists). -/
def sel (xs : List ℚ) (idx : List Nat) : List ℚ :=
  idx.map (fun i => xs.getD i 0)

/-- Fancy indexing of a datetime array. -/
def selTS (xs : List TS) (idx : List Nat) : List TS :=
  idx.map (fun i => xs.getD i default)

/-- The index list `[i for i, d in enumerate(datetimes) if Timestamp(d).hour
in hours]`. -/
def hourIdx (dts : List TS) (hours : List Nat) : List Nat :=
  (List.range dts.length).filter (fun i => decide ((dts.getD i default).hour ∈ hours))

/-- The index list for a month bucket. -/
def monthIdx (dts : List TS) (months : List Nat) : List Nat :=
  (List.range dts.length).filter (fun i => decide ((dts.getD i default).month ∈ months))

/-- `compute_metrics_part_of_day` (errors.py lines 41–78): for every split
with a non-empty index list, run the kernel on the selected rows, keys tagged
`<label>/`; empty splits contribute nothing. -/
def compute_metrics_part_of_day (p t : List ℚ) (dts : List TS)
    (hour_split : List (String × List Nat)) : Rec :=
  hour_split.foldl
    (fun m sp =>
      let split_dates := hourIdx dts sp.2
      if 0 < split_dates.length then
        rupdate m (common_metrics (sel p split_dates) (sel t split_dates) (sp.1 ++ "/"))
      else m)
    []

/-- `compute_metrics_part_of_year` (errors.py lines 81–118). -/
def compute_metrics_part_of_year (p t : List ℚ) (dts : List TS)
    (year_split : List (String × List Nat)) : Rec :=
  year_split.foldl
    (fun m sp =>
      let split_dates := monthIdx dts sp.2
      if 0 < split_dates.length then
        rupdate m (common_metrics (sel p split_dates) (sel t split_dates) (sp.1 ++ "/"))
      else m)
    []

/-- `pd.Timedelta.seconds` of a delta of `d` whole seconds: the seconds
component, in `[0, 86400)` (Python `%` on a positive modulus). -/
def tdSeconds (d : Int) : Int := Int.emod d 86400

/-- The tag `f"forecast_horizon_{time_delta.seconds // 60}_minutes/"` for the
delta between a sample's timestamp and its start time. -/
def horizon_tag (d s : TS) : String :=
  "forecast_horizon_" ++ toString (Int.ediv (tdSeconds (d.epoch - s.epoch)) 60)
    ++ "_minutes/"

/-- `compute_metrics_time_horizons` (errors.py lines 121–151): one kernel call
*per sample* `i`, on the scalars `predictions[i]`, `target[i]` (a numpy scalar
behaves as a singleton array under `np.mean`), tagged with that sample's
horizon; successive samples with the same horizon overwrite. -/
def compute_metrics_time_horizons (p t : List ℚ) (dts st : List TS) : Rec :=
  (List.range dts.length).foldl
    (fun m i =>
      rupdate m
        (common_metrics [p.getD i 0] [t.getD i 0]
          (horizon_tag (dts.getD i default) (st.getD i default))))
    []

/-- The forecast-horizon segmenter as the specification words it: one bucket
per distinct delta, the kernel run once over the multi-row slice of all
samples sharing that delta.  Stated only to be compared with
`compute_metrics_time_horizons`. -/
def compute_metrics_time_horizons_spec (p t : List ℚ) (dts st : List TS) : Rec :=
  ((List.range dts.length).map
      (fun i => horizon_tag (dts.getD i default) (st.getD i default))).dedup.foldl
    (fun m tg =>
      let idx := (List.range dts.length).filter
        (fun i => decide (horizon_tag (dts.getD i default) (st.getD i default) = tg))
      rupdate m (common_metrics (sel p idx) (sel t idx) tg))
    []

/-! ### `count_large_errors` (errors.py lines 154–197) -/

/-- The key and count built after validation: `errors = np.abs(p - t)`, the
loop counts `err > threshold` only when `threshold >= 0`, and the single key
names whichever of threshold/sigma is active. -/
def cle_dict (p t : List ℚ) (threshold sigma : ℚ) (tag : String) : Rec :=
  let errors := (List.zipWith (· - ·) p t).map (fun x => |x|)
  let large_error_count :=
    if 0 ≤ threshold then (errors.filter (fun e => threshold < e)).length else 0
  [(tag ++ "large_error_count_"
      ++ (if 0 ≤ threshold then "threshold" else "sigma") ++ "_"
      ++ qstr (if 0 ≤ threshold then threshold else sigma),
    MV.cnt large_error_count)]

/-- `count_large_errors`: validation first — both options set is an
`AssertionError`, the sigma mode alone is a `NotImplementedError` — then the
counting loop.  (The subtraction itself is on equal-length arrays at every
call site; a caller-side mismatch would raise in numpy, which the aggregator
precludes by its own length assertion.) -/
def count_large_errors (p t : List ℚ) (threshold sigma : ℚ) (tag : String) :
    Except String Rec :=
  if 0 ≤ threshold then
    if sigma < 0 then Except.ok (cle_dict p t threshold sigma tag)
    else Except.error "AssertionError: Cannot set both sigma and threshold"
  else if 0 ≤ sigma then
    Except.error "NotImplementedError: Sigma support has not been created yet"
  else Except.ok (cle_dict p t threshold sigma tag)

/-- Inside `compute_metrics`, `count_large_errors` is always called with
`sigma` at its default `-1`, so it never raises and returns `cle_dict`. -/
theorem count_large_errors_default (p t : List ℚ) (threshold : ℚ) :
    count_large_errors p t threshold (-1) "" =
      Except.ok (cle_dict p t threshold (-1) "") := by
  unfold count_large_errors
  rcases le_or_lt 0 threshold with h | h
  · simp [h]
  · simp [not_le.mpr h]

/-! ### `filter_night` (utils.py lines 8–49) and the aggregator
(`compute_metrics`, errors.py lines 200–312) -/

/-- The `thresholds` argument of `compute_metrics`: `Union[list, float]`. -/
inductive Thresholds where
  | scalar (q : ℚ)
  | list (qs : List ℚ)
deriving DecidableEq, Repr

/-- The indices kept by `filter_night`: elevation `> sun_position_for_night`
(the mask `elevation <= sun_position_for_night` marks night and is dropped).
`gse` is the opaque `pvlib` solar-position function. -/
def nightKeepIdx (gse : TS → ℚ → ℚ → ℚ) (dts : List TS)
    (latitude longitude spn : ℚ) : List Nat :=
  (List.range dts.length).filter
    (fun i => decide (¬ gse (dts.getD i default) latitude longitude ≤ spn))

/-- `filter_night`: keep the non-night rows of predictions, target and
datetimes.  (The source returns only these three arrays — start times are not
filtered.) -/
def filter_night (gse : TS → ℚ → ℚ → ℚ) (p t : List ℚ) (dts : List TS)
    (latitude longitude spn : ℚ) : List ℚ × List ℚ × List TS :=
  let keep := nightKeepIdx gse dts latitude longitude spn
  (sel p keep, sel t keep, selTS dts keep)

/-- Steps 1–5 of `compute_metrics` (kernel, time-of-day, time-of-year,
forecast horizons, large-error counts), shared verbatim by the base pass and
the night-filtered pass of the source. -/
def metrics_pass (p t : List ℚ) (dts st : List TS) (thresholds : Thresholds)
    (hour_split year_split : List (String × List Nat)) : Rec :=
  let metrics := common_metrics p t ""
  let metrics := rupdate metrics (compute_metrics_part_of_day p t dts hour_split)
  let metrics := rupdate metrics (compute_metrics_part_of_year p t dts year_split)
  let metrics := rupdate metrics (compute_metrics_time_horizons p t dts st)
  match thresholds with
  | Thresholds.list qs =>
      qs.foldl (fun m th => rupdate m (cle_dict p t th (-1) "")) metrics
  | Thresholds.scalar q =>
      if 0 ≤ q then rupdate metrics (cle_dict p t q (-1) "") else metrics

/-- `compute_metrics` (errors.py lines 200–312): assert equal lengths, run the
base pass; if `filter_by_night`, run the same pass on the night-filtered
arrays — with the *unfiltered* `start_time` array, as the source passes
`start_time=start_time` — prefix its keys `no_night/`, merge, and finally
prefix every key with `tag + "/"`. -/
def compute_metrics (gse : TS → ℚ → ℚ → ℚ) (p t : List ℚ) (dts st : List TS)
    (filter_by_night : Bool) (tag : String) (thresholds : Thresholds)
    (hour_split year_split : List (String × List Nat))
    (latitude longitude spn : ℚ) : Except String Rec :=
  if p.length = t.length ∧ t.length = dts.length ∧ dts.length = st.length then
    let metrics := metrics_pass p t dts st thresholds hour_split year_split
    let metrics :=
      if filter_by_night then
        let day := filter_night gse p t dts latitude longitude spn
        let day_metrics := metrics_pass day.1 day.2.1 day.2.2 st thresholds
          hour_split year_split
        rupdate metrics (prefixAll "no_night/" day_metrics)
      else metrics
    Except.ok (prefixAll (tag ++ "/") metrics)
  else
    Except.error "AssertionError: Lens of prediction, target, datetime, and start times "

/-- The night pass as the specification words it: steps 1–5 repeated on the
filtered *subset of samples*, start times included.  Stated only to be
compared with what `compute_metrics` actually runs. -/
def night_pass_spec (gse : TS → ℚ → ℚ → ℚ) (p t : List ℚ) (dts st : List TS)
    (thresholds : Thresholds) (hour_split year_split : List (String × List Nat))
    (latitude longitude spn : ℚ) : Rec :=
  let keep := nightKeepIdx gse dts latitude longitude spn
  metrics_pass (sel p keep) (sel t keep) (selTS dts keep) (selTS st keep)
    thresholds hour_split year_split

/-! ### Baselines (`baselines/simple.py`) -/

/-- A Python value as returned by a baseline: either an array, or an exception
*object* used as an ordinary value (`return NotImplementedError(...)`). -/
inductive PyVal where
  | arr (xs : List ℚ)
  | excValue (exc msg : String)
deriving DecidableEq, Repr

/-- `zero_baseline`: an all-zeros array of the same shape. -/
def zero_baseline (predictions : List ℚ) : PyVal :=
  PyVal.arr (predictions.map (fun _ => 0))

/-- `last_day_persistence` (simple.py lines 46–56): the body is
`return NotImplementedError(...)` — it *returns* the exception object as its
value instead of raising, so the call succeeds (`Except.ok`) with a
non-array placeholder. -/
def last_day_persistence (predictions : List ℚ) : Except String PyVal :=
  Except.ok (PyVal.excValue "NotImplementedError"
    "Last Day persistence has not been added yet")

/-! ### Lemmas about record operations -/

theorem rget_foldl_acc (k : String) (d : Rec) :
    ∀ acc, d.foldl (fun a e => if e.1 = k then some e.2 else a) acc =
      match rget d k with
      | some v => some v
      | none => acc := by
  induction d with
  | nil => intro acc; simp [rget]
  | cons e d ih =>
    intro acc
    have hr : rget (e :: d) k =
        match rget d k with
        | some v => some v
        | none => if e.1 = k then some e.2 else none := by
      show d.foldl _ (if e.1 = k then some e.2 else none) = _
      exact ih _
    rw [List.foldl_cons, ih, hr]
    rcases rget d k with _ | v <;> by_cases h2 : e.1 = k <;> simp [h2]

theorem rget_append (a b : Rec) (k : String) :
    rget (a ++ b) k =
      match rget b k with
      | some v => some v
      | none => rget a k := by
  show (a ++ b).foldl _ none = _
  rw [List.foldl_append]
  exact rget_foldl_acc k b _

theorem rget_append_some {b : Rec} {k : String} {v : MV} (a : Rec)
    (h : rget b k = some v) : rget (a ++ b) k = some v := by
  rw [rget_append, h]

theorem rget_append_none {b : Rec} {k : String} (a : Rec)
    (h : rget b k = none) : rget (a ++ b) k = rget a k := by
  rw [rget_append, h]

theorem rget_eq_none_of_not_mem : ∀ {d : Rec} {k : String}, k ∉ rkeys d →
    rget d k = none := by
  intro d
  induction d with
  | nil => intro k _; rfl
  | cons e d ih =>
    intro k hk
    simp only [rkeys, List.map_cons, List.mem_cons, not_or] at hk
    have h1 : ¬ e.1 = k := fun h => hk.1 h.symm
    have hr : rget (e :: d) k =
        match rget d k with
        | some v => some v
        | none => if e.1 = k then some e.2 else none := by
      show d.foldl _ (if e.1 = k then some e.2 else none) = _
      exact rget_foldl_acc k d _
    rw [hr, ih (by simpa [rkeys] using hk.2)]
    simp [h1]

theorem mem_rkeys_append {k : String} {a b : Rec} :
    k ∈ rkeys (a ++ b) ↔ k ∈ rkeys a ∨ k ∈ rkeys b := by
  simp [rkeys]

theorem mem_rkeys_flatten {k : String} {l : List Rec} :
    k ∈ rkeys l.flatten ↔ ∃ d ∈ l, k ∈ rkeys d := by
  simp [rkeys, List.mem_flatten]

theorem mem_rkeys_prefixAll {k : String} {pre : String} {d : Rec} :
    k ∈ rkeys (prefixAll pre d) ↔ ∃ k₀ ∈ rkeys d, k = pre ++ k₀ := by
  simp only [rkeys, prefixAll, List.map_map, List.mem_map, Function.comp]
  constructor
  · rintro ⟨e, he, rfl⟩
    exact ⟨e.1, ⟨e, he, rfl⟩, rfl⟩
  · rintro ⟨k₀, ⟨e, he, rfl⟩, rfl⟩
    exact ⟨e, he, rfl⟩

/-- A `dict.update` loop (`foldl` of `rupdate`) lays the blocks down in
order. -/
theorem foldl_rupdate_eq_append {α : Type} (g : α → Rec) :
    ∀ (l : List α) (init : Rec),
      l.foldl (fun m x => rupdate m (g x)) init = init ++ (l.map g).flatten := by
  intro l
  induction l with
  | nil => intro init; simp
  | cons x l ih =>
    intro init
    rw [List.foldl_cons, ih]
    simp [rupdate, List.append_assoc]

/-- Same, for an update guarded by a per-element condition (empty buckets are
skipped). -/
theorem foldl_guarded_rupdate_eq_append {α : Type} (g : α → Rec) (c : α → Prop)
    [DecidablePred c] :
    ∀ (l : List α) (init : Rec),
      l.foldl (fun m x => if c x then rupdate m (g x) else m) init =
        init ++ (l.map (fun x => if c x then g x else [])).flatten := by
  intro l
  induction l with
  | nil => intro init; simp
  | cons x l ih =>
    intro init
    rw [List.foldl_cons]
    by_cases h : c x
    · rw [if_pos h, ih]
      simp [rupdate, h, List.append_assoc]
    · rw [if_neg h, ih]
      simp [h]

/-! ### Lemmas about strings, keys and the kernel record -/

theorem string_append_right_ne (s : String) {a b : String} (h : a ≠ b) :
    s ++ a ≠ s ++ b := by
  intro hc
  apply h
  have hd := congrArg String.data hc
  simp only [String.data_append] at hd
  exact String.ext (List.append_cancel_left hd)

theorem string_append_left_ne {s₁ s₂ : String} (a : String) (h : s₁ ≠ s₂) :
    s₁ ++ a ≠ s₂ ++ a := by
  intro hc
  apply h
  have hd := congrArg String.data hc
  simp only [String.data_append] at hd
  exact String.ext (List.append_cancel_right hd)

theorem mae_ne_rmse (s₁ s₂ : String) : s₁ ++ "mae" ≠ s₂ ++ "rmse" := by
  intro hc
  have hd : s₁.data ++ "mae".data = s₂.data ++ "rmse".data := by
    simpa only [String.data_append] using congrArg String.data hc
  have hrev := congrArg (fun l : List Char => l.reverse.getD 1 ' ') hd
  simp only [List.reverse_append] at hrev
  rw [show "mae".data.reverse = ['e', 'a', 'm'] from by decide,
      show "rmse".data.reverse = ['e', 's', 'm', 'r'] from by decide] at hrev
  rw [List.getD_append _ _ _ _ (by decide),
      List.getD_append _ _ _ _ (by decide)] at hrev
  exact absurd hrev (by decide)

theorem rkeys_common_metrics (p t : List ℚ) (tag : String) :
    rkeys (common_metrics p t tag) = [tag ++ "mae", tag ++ "rmse"] := rfl

theorem rget_common_metrics_mae (p t : List ℚ) (tag : String) :
    rget (common_metrics p t tag) (tag ++ "mae") =
      some (npMeanMV ((List.zipWith (· - ·) p t).map (fun x => |x|))) := by
  have h : ¬ (tag ++ "rmse" = tag ++ "mae") :=
    string_append_right_ne tag (by decide)
  simp [rget, common_metrics, h]

/-! ### Characterizations of the segmenter loops as block lists -/

theorem compute_metrics_part_of_day_eq (p t : List ℚ) (dts : List TS)
    (split : List (String × List Nat)) :
    compute_metrics_part_of_day p t dts split =
      (split.map (fun sp =>
        if 0 < (hourIdx dts sp.2).length then
          common_metrics (sel p (hourIdx dts sp.2)) (sel t (hourIdx dts sp.2))
            (sp.1 ++ "/")
        else [])).flatten := by
  have h := foldl_guarded_rupdate_eq_append
    (fun sp : String × List Nat =>
      common_metrics (sel p (hourIdx dts sp.2)) (sel t (hourIdx dts sp.2))
        (sp.1 ++ "/"))
    (fun sp => 0 < (hourIdx dts sp.2).length) split []
  simpa [compute_metrics_part_of_day] using h

theorem compute_metrics_part_of_year_eq (p t : List ℚ) (dts : List TS)
    (split : List (String × List Nat)) :
    compute_metrics_part_of_year p t dts split =
      (split.map (fun sp =>
        if 0 < (monthIdx dts sp.2).length then
          common_metrics (sel p (monthIdx dts sp.2)) (sel t (monthIdx dts sp.2))
            (sp.1 ++ "/")
        else [])).flatten := by
  have h := foldl_guarded_rupdate_eq_append
    (fun sp : String × List Nat =>
      common_metrics (sel p (monthIdx dts sp.2)) (sel t (monthIdx dts sp.2))
        (sp.1 ++ "/"))
    (fun sp => 0 < (monthIdx dts sp.2).length) split []
  simpa [compute_metrics_part_of_year] using h

theorem compute_metrics_time_horizons_eq (p t : List ℚ) (dts st : List TS) :
    compute_metrics_time_horizons p t dts st =
      ((List.range dts.length).map (fun i =>
        common_metrics [p.getD i 0] [t.getD i 0]
          (horizon_tag (dts.getD i default) (st.getD i default)))).flatten := by
  have h := foldl_rupdate_eq_append
    (fun i => common_metrics [p.getD i 0] [t.getD i 0]
      (horizon_tag (dts.getD i default) (st.getD i default)))
    (List.range dts.length) []
  simpa [compute_metrics_time_horizons] using h

theorem metrics_pass_eq (p t : List ℚ) (dts st : List TS) (ths : Thresholds)
    (hs ys : List (String × List Nat)) :
    metrics_pass p t dts st ths hs ys =
      common_metrics p t "" ++ compute_metrics_part_of_day p t dts hs
        ++ compute_metrics_part_of_year p t dts ys
        ++ compute_metrics_time_horizons p t dts st
        ++ (match ths with
            | Thresholds.list qs => (qs.map (fun th => cle_dict p t th (-1) "")).flatten
            | Thresholds.scalar q => if 0 ≤ q then cle_dict p t q (-1) "" else []) := by
  cases ths with
  | list qs =>
    have h := foldl_rupdate_eq_append (fun th => cle_dict p t th (-1) "") qs
      (rupdate (rupdate (rupdate (common_metrics p t "")
            (compute_metrics_part_of_day p t dts hs))
          (compute_metrics_part_of_year p t dts ys))
        (compute_metrics_time_horizons p t dts st))
    simpa [metrics_pass, rupdate, List.append_assoc] using h
  | scalar q =>
    by_cases h : 0 ≤ q <;> simp [metrics_pass, rupdate, h, List.append_assoc]

/-! ### Key sets of the segmenter outputs -/

theorem mem_rkeys_part_of_day {k : String} (p t : List ℚ) (dts : List TS)
    (split : List (String × List Nat)) :
    k ∈ rkeys (compute_metrics_part_of_day p t dts split) ↔
      ∃ sp ∈ split, 0 < (hourIdx dts sp.2).length ∧
        (k = sp.1 ++ "/" ++ "mae" ∨ k = sp.1 ++ "/" ++ "rmse") := by
  rw [compute_metrics_part_of_day_eq, mem_rkeys_flatten]
  constructor
  · rintro ⟨d, hd, hk⟩
    rcases List.mem_map.1 hd with ⟨sp, hsp, rfl⟩
    by_cases hc : 0 < (hourIdx dts sp.2).length
    · rw [if_pos hc, rkeys_common_metrics] at hk
      simp only [List.mem_cons, List.mem_singleton, List.not_mem_nil, or_false] at hk
      exact ⟨sp, hsp, hc, hk⟩
    · rw [if_neg hc] at hk
      simp [rkeys] at hk
  · rintro ⟨sp, hsp, hc, hk⟩
    refine ⟨_, List.mem_map_of_mem _ hsp, ?_⟩
    rw [if_pos hc, rkeys_common_metrics]
    rcases hk with rfl | rfl <;> simp

theorem mem_rkeys_part_of_year {k : String} (p t : List ℚ) (dts : List TS)
    (split : List (String × List Nat)) :
    k ∈ rkeys (compute_metrics_part_of_year p t dts split) ↔
      ∃ sp ∈ split, 0 < (monthIdx dts sp.2).length ∧
        (k = sp.1 ++ "/" ++ "mae" ∨ k = sp.1 ++ "/" ++ "rmse") := by
  rw [compute_metrics_part_of_year_eq, mem_rkeys_flatten]
  constructor
  · rintro ⟨d, hd, hk⟩
    rcases List.mem_map.1 hd with ⟨sp, hsp, rfl⟩
    by_cases hc : 0 < (monthIdx dts sp.2).length
    · rw [if_pos hc, rkeys_common_metrics] at hk
      simp only [List.mem_cons, List.mem_singleton, List.not_mem_nil, or_false] at hk
      exact ⟨sp, hsp, hc, hk⟩
    · rw [if_neg hc] at hk
      simp [rkeys] at hk
  · rintro ⟨sp, hsp, hc, hk⟩
    refine ⟨_, List.mem_map_of_mem _ hsp, ?_⟩
    rw [if_pos hc, rkeys_common_metrics]
    rcases hk with rfl | rfl <;> simp

theorem mem_rkeys_time_horizons {k : String} (p t : List ℚ) (dts st : List TS) :
    k ∈ rkeys (compute_metrics_time_horizons p t dts st) ↔
      ∃ i, i < dts.length ∧
        (k = horizon_tag (dts.getD i default) (st.getD i default) ++ "mae" ∨
         k = horizon_tag (dts.getD i default) (st.getD i default) ++ "rmse") := by
  rw [compute_metrics_time_horizons_eq, mem_rkeys_flatten]
  constructor
  · rintro ⟨d, hd, hk⟩
    rcases List.mem_map.1 hd with ⟨i, hi, rfl⟩
    rw [rkeys_common_metrics] at hk
    simp only [List.mem_cons, List.mem_singleton, List.not_mem_nil, or_false] at hk
    exact ⟨i, List.mem_range.1 hi, hk⟩
  · rintro ⟨i, hi, hk⟩
    refine ⟨_, List.mem_map_of_mem _ (List.mem_range.2 hi), ?_⟩
    rw [rkeys_common_metrics]
    rcases hk with rfl | rfl <;> simp

/-- The kernel on the pair of scalars of sample `i`: the MAE entry is the
plain absolute error of that one sample. -/
theorem rget_common_metrics_single_mae (a b : ℚ) (tag : String) :
    rget (common_metrics [a] [b] tag) (tag ++ "mae") = some (MV.num |a - b|) := by
  rw [rget_common_metrics_mae]
  simp [npMeanMV]

/-- Last write wins in the forecast-horizon loop: if no later sample shares
sample `i`'s horizon tag, the MAE bucket of that tag holds sample `i`'s own
absolute error. -/
theorem rget_time_horizons_blocks (p t : List ℚ) (dts st : List TS) :
    ∀ n i, i < n →
      (∀ j, i < j → j < n →
        horizon_tag (dts.getD j default) (st.getD j default) ≠
          horizon_tag (dts.getD i default) (st.getD i default)) →
      rget (((List.range n).map (fun j =>
          common_metrics [p.getD j 0] [t.getD j 0]
            (horizon_tag (dts.getD j default) (st.getD j default)))).flatten)
        (horizon_tag (dts.getD i default) (st.getD i default) ++ "mae") =
        some (MV.num |p.getD i 0 - t.getD i 0|) := by
  intro n
  induction n with
  | zero => intro i hi _; omega
  | succ n ih =>
    intro i hi hlast
    rw [List.range_succ, List.map_append, List.flatten_append]
    rcases Nat.lt_succ_iff_lt_or_eq.1 hi with hi' | rfl
    · have hne : horizon_tag (dts.getD n default) (st.getD n default) ≠
          horizon_tag (dts.getD i default) (st.getD i default) :=
        hlast n hi' (Nat.lt_succ_self n)
      have hnone : rget (([n].map (fun j =>
          common_metrics [p.getD j 0] [t.getD j 0]
            (horizon_tag (dts.getD j default) (st.getD j default)))).flatten)
          (horizon_tag (dts.getD i default) (st.getD i default) ++ "mae") = none := by
        apply rget_eq_none_of_not_mem
        simp only [List.map_cons, List.map_nil, List.flatten_cons,
          List.flatten_nil, List.append_nil, rkeys_common_metrics]
        intro hmem
        rcases List.mem_cons.1 hmem with h | h
        · exact string_append_left_ne "mae" hne h.symm
        · rcases List.mem_singleton.1 h with h
          exact mae_ne_rmse _ _ h
      rw [rget_append_none _ hnone]
      exact ih i hi' (fun j h1 h2 => hlast j h1 (Nat.lt_succ_of_lt h2))
    · apply rget_append_some
      simp only [List.map_cons, List.map_nil, List.flatten_cons,
        List.flatten_nil, List.append_nil]
      exact rget_common_metrics_single_mae _ _ _

/-! ### Counting lemmas for the partition properties -/

/-- The segmenter's index filter selects as many indices as there are matching
samples. -/
theorem length_idxFilter (q : TS → Bool) :
    ∀ l : List TS,
      ((List.range l.length).filter (fun i => q (l.getD i default))).length =
        (l.filter q).length := by
  intro l
  induction l with
  | nil => rfl
  | cons a l ih =>
    have ih' : (List.filter (fun i => q (l[i]?.getD default))
        (List.range l.length)).length = (l.filter q).length := by
      simpa [List.getD_eq_getElem?_getD] using ih
    cases hq : q a <;>
      simp [List.range_succ_eq_map, List.filter_cons, hq, List.filter_map,
        Function.comp_def, List.getD_cons_succ, List.getD_cons_zero, ih',
        List.getD_eq_getElem?_getD]

theorem sum_map_add_distrib {α : Type} (f g : α → Nat) (l : List α) :
    (l.map (fun x => f x + g x)).sum = (l.map f).sum + (l.map g).sum := by
  induction l with
  | nil => rfl
  | cons a l ih => simp [ih]; omega

/-- Prepending a sample adds its per-bucket indicator to every bucket count. -/
theorem sum_filter_counts_cons (split : List (String × List Nat))
    (attr : TS → Nat) (a : TS) (l : List TS) :
    (split.map (fun sp =>
        ((a :: l).filter (fun d => decide (attr d ∈ sp.2))).length)).sum =
      (split.map (fun sp => if attr a ∈ sp.2 then 1 else 0)).sum +
        (split.map (fun sp =>
          (l.filter (fun d => decide (attr d ∈ sp.2))).length)).sum := by
  rw [← sum_map_add_distrib]
  congr 1
  apply List.map_congr_left
  intro sp _
  rw [List.filter_cons]
  by_cases h : attr a ∈ sp.2 <;> simp [h] <;> omega

/-- If every sample's attribute lands in exactly one bucket of `split` (the
indicator sum is 1), the bucket counts sum to the number of samples. -/
theorem sum_split_counts (split : List (String × List Nat)) (attr : TS → Nat)
    (P : Nat → Prop)
    (hone : ∀ n, P n → (split.map (fun sp => if n ∈ sp.2 then 1 else 0)).sum = 1) :
    ∀ dts : List TS, (∀ d ∈ dts, P (attr d)) →
      (split.map (fun sp =>
        (dts.filter (fun d => decide (attr d ∈ sp.2))).length)).sum = dts.length := by
  intro dts
  induction dts with
  | nil => intro _; simp
  | cons a l ih =>
    intro h
    rw [sum_filter_counts_cons, hone (attr a) (h a (List.mem_cons_self a l)),
      ih (fun d hd => h d (List.mem_cons_of_mem a hd))]
    simp [Nat.add_comm]

/-! ### Interpretation of metric values and column-mean lemmas -/

/-- The real number a metric value denotes: `root x` is `np.sqrt x`; `nan`
has no real denotation and is arbitrarily read as `0`. -/
noncomputable def MV.toReal : MV → ℝ
  | MV.num x => (x : ℝ)
  | MV.root x => Real.sqrt (x : ℝ)
  | MV.cnt n => (n : ℝ)
  | MV.nan => 0

theorem zipWith_eq_map_zip {α β γ : Type} (f : α → β → γ) :
    ∀ (l₁ : List α) (l₂ : List β),
      List.zipWith f l₁ l₂ = (l₁.zip l₂).map fun e => f e.1 e.2 := by
  intro l₁
  induction l₁ with
  | nil => intro l₂; simp
  | cons a l ih => intro l₂; cases l₂ <;> simp [ih]

theorem getD_range_map {α : Type} (f : Nat → α) (D j : Nat) (hj : j < D) (d : α) :
    ((List.range D).map f).getD j d = f j := by
  rw [List.getD_eq_getElem _ _ (by simpa using hj), List.getElem_map]
  congr 1
  exact List.getElem_range _ _

theorem row_getD (a b : List ℚ) (g : ℚ → ℚ) (hg : g 0 = 0) (j : Nat)
    (ha : j < a.length) (hb : j < b.length) :
    ((List.zipWith (· - ·) a b).map g).getD j 0 = g (a.getD j 0 - b.getD j 0) := by
  have h1 : j < (List.zipWith (· - ·) a b).length := by
    rw [List.length_zipWith]; omega
  calc ((List.zipWith (· - ·) a b).map g).getD j 0
      = ((List.zipWith (· - ·) a b).map g).getD j (g 0) := by rw [hg]
    _ = g ((List.zipWith (· - ·) a b).getD j 0) := List.getD_map _ _ _
    _ = g (a.getD j 0 - b.getD j 0) := by
        rw [List.getD_eq_getElem _ _ h1, List.getElem_zipWith,
          List.getD_eq_getElem _ _ ha, List.getD_eq_getElem _ _ hb]

/-- A column entry of the axis-0 mean of elementwise `g` applied to the row
differences: the mean of `g` of the per-sample column differences. -/
theorem mean_axis0_entry (p2 t2 : List (List ℚ)) (g : ℚ → ℚ) (hg : g 0 = 0)
    (D j : Nat) (hj : j < D) (hlen : p2.length = t2.length)
    (hp : ∀ r ∈ p2, r.length = D) (ht : ∀ r ∈ t2, r.length = D) :
    (npMeanAxis0 ((npSub2 p2 t2).map (fun r => r.map g)) D).getD j 0 =
      ((p2.zip t2).map (fun e => g (e.1.getD j 0 - e.2.getD j 0))).sum
        / p2.length := by
  unfold npMeanAxis0
  rw [getD_range_map _ _ _ hj]
  have hrows : (((npSub2 p2 t2).map (fun r => r.map g)).map
      (fun r => r.getD j 0)) =
      (p2.zip t2).map (fun e => g (e.1.getD j 0 - e.2.getD j 0)) := by
    rw [npSub2, zipWith_eq_map_zip, List.map_map, List.map_map]
    apply List.map_congr_left
    rintro ⟨a, b⟩ hab
    have hA : a.length = D := hp a (List.of_mem_zip hab).1
    have hB : b.length = D := ht b (List.of_mem_zip hab).2
    simp only [Function.comp]
    exact row_getD a b g hg j (by omega) (by omega)
  rw [hrows]
  congr 1
  simp [npSub2, List.length_zipWith, hlen]

/-! ## Claim theorems -/

/-- C5 (code bug evidence): the claim — and the function's own docstring —
say invoking the last-day-persistence baseline raises a not-implemented
error, but the body is `return NotImplementedError(...)`: the call succeeds
(`Except.ok`) and hands back the exception *object* as its value; no
exception is raised for any input. -/
theorem C5_last_day_persistence_returns_not_raises :
    last_day_persistence [1, 2, 3] =
      Except.ok (PyVal.excValue "NotImplementedError"
        "Last Day persistence has not been added yet") ∧
    ∀ predictions : List ℚ, ∀ msg : String,
      last_day_persistence predictions ≠ Except.error msg := by
  refine ⟨rfl, ?_⟩
  intro predictions msg h
  exact Except.noConfusion h

/-- C6: invoking the sigma mode (`sigma ≥ 0` with `threshold < 0`) fails
loudly with `NotImplementedError`, and supplying both a `threshold ≥ 0` and a
`sigma ≥ 0` fails validation with `AssertionError`; in both cases the call
ends in an error, so no error counting proceeds. -/
theorem C6_count_large_errors_unimplemented_and_exclusive (p t : List ℚ)
    (threshold sigma : ℚ) (tag : String) :
    (0 ≤ sigma → threshold < 0 →
      count_large_errors p t threshold sigma tag =
        Except.error "NotImplementedError: Sigma support has not been created yet") ∧
    (0 ≤ threshold → 0 ≤ sigma →
      count_large_errors p t threshold sigma tag =
        Except.error "AssertionError: Cannot set both sigma and threshold") := by
  constructor
  · intro hs ht
    rw [count_large_errors, if_neg (not_le.2 ht), if_pos hs]
  · intro ht hs
    rw [count_large_errors, if_pos ht, if_neg (not_lt.2 hs)]

/-- Witness for C6 at concrete inputs. -/
theorem C6_witness :
    count_large_errors [1] [2] (-1) 2 "" =
        Except.error "NotImplementedError: Sigma support has not been created yet" ∧
      count_large_errors [1] [2] 3 2 "" =
        Except.error "AssertionError: Cannot set both sigma and threshold" :=
  ⟨(C6_count_large_errors_unimplemented_and_exclusive [1] [2] (-1) 2 "").1
      (by decide) (by decide),
    (C6_count_large_errors_unimplemented_and_exclusive [1] [2] 3 2 "").2
      (by decide) (by decide)⟩

/-- C10: with both `threshold` and `sigma` at their negative defaults,
`count_large_errors` raises nothing and returns the single sigma-named key
(`large_error_count_sigma_-1` — sigma-named although no sigma mode ran)
mapped to a count of 0, for every pair of inputs. -/
theorem C10_count_large_errors_defaults (p t : List ℚ) :
    count_large_errors p t (-1) (-1) "" =
      Except.ok [("large_error_count_sigma_-1", MV.cnt 0)] := by
  have h : ¬ (0 : ℚ) ≤ -1 := by norm_num
  simp only [count_large_errors, cle_dict, if_neg h]
  congr 1

/-- C4 counterexample: on empty input the metric kernel does *not* fail — it
returns an `ok` record whose two values are NaN (numpy's mean of an empty
array), contradicting the claimed raise-on-empty contract. -/
theorem C4_counterexample :
    common_metricsNp [] [] "" =
      Except.ok [("mae", MV.nan), ("rmse", MV.nan)] := by
  rfl

/-- C4 amended: the kernel raises on a length mismatch numpy cannot broadcast
(lengths unequal and neither operand of length 1), but on empty input it
silently returns NaN for both metrics instead of raising. -/
theorem C4_amended_kernel_error_contract (p t : List ℚ) (tag : String) :
    (p.length ≠ t.length → p.length ≠ 1 → t.length ≠ 1 →
      common_metricsNp p t tag =
        Except.error "ValueError: operands could not be broadcast together") ∧
    (p = [] → t = [] →
      common_metricsNp p t tag =
        Except.ok [(tag ++ "mae", MV.nan), (tag ++ "rmse", MV.nan)]) := by
  constructor
  · intro h1 h2 h3
    simp [common_metricsNp, npSub, h1, h2, h3, Bind.bind, Except.bind]
  · rintro rfl rfl
    simp [common_metricsNp, npSub, npMeanMV, npSqrtMeanMV, Bind.bind, Except.bind]

/-- Witness for C4's amended contract at concrete inputs. -/
theorem C4_witness :
    common_metricsNp [1, 2] [1, 2, 3] "" =
        Except.error "ValueError: operands could not be broadcast together" ∧
      common_metricsNp [] [] "x" =
        Except.ok [("x" ++ "mae", MV.nan), ("x" ++ "rmse", MV.nan)] :=
  ⟨(C4_amended_kernel_error_contract [1, 2] [1, 2, 3] "").1
      (by decide) (by decide) (by decide),
    (C4_amended_kernel_error_contract [] [] "x").2 rfl rfl⟩

theorem npMeanMV_of_ne_nil {l : List ℚ} (h : l ≠ []) :
    npMeanMV l = MV.num (l.sum / l.length) := by
  unfold npMeanMV
  rw [if_neg (by simp [List.isEmpty_iff, h])]

theorem npSqrtMeanMV_of_ne_nil {l : List ℚ} (h : l ≠ []) :
    npSqrtMeanMV l = MV.root (l.sum / l.length) := by
  unfold npSqrtMeanMV
  rw [if_neg (by simp [List.isEmpty_iff, h])]

theorem rget_common_metrics_rmse (p t : List ℚ) (tag : String) :
    rget (common_metrics p t tag) (tag ++ "rmse") =
      some (npSqrtMeanMV ((List.zipWith (· - ·) p t).map (fun x => x * x))) := by
  simp [rget, common_metrics]

/-- C3: the kernel's `mae` is `mean |predictions − target|` and its `rmse` is
`sqrt (mean (predictions − target)²)` (read through `MV.toReal`); on a 1-D
input each metric is one scalar, and on an `(N, D)` input each metric is a
length-`D` vector whose `j`-th entry is the mean of column `j` over the `N`
samples only. -/
theorem C3_kernel_mae_rmse (p t : List ℚ) (p2 t2 : List (List ℚ)) (D : Nat)
    (tag : String) :
    (p.length = t.length → p ≠ [] →
      (∃ v, rget (common_metrics p t tag) (tag ++ "mae") = some v ∧
        v.toReal =
          ((((p.zip t).map (fun e => |e.1 - e.2|)).sum / p.length : ℚ) : ℝ)) ∧
      (∃ v, rget (common_metrics p t tag) (tag ++ "rmse") = some v ∧
        v.toReal = Real.sqrt
          ((((p.zip t).map (fun e => (e.1 - e.2) * (e.1 - e.2))).sum
            / p.length : ℚ) : ℝ))) ∧
    (p2.length = t2.length →
      (∀ r ∈ p2, r.length = D) → (∀ r ∈ t2, r.length = D) →
      ∃ v w : List ℚ,
        common_metrics2 p2 t2 D tag =
          [(tag ++ "mae", MV2.vnum v), (tag ++ "rmse", MV2.vroot w)] ∧
        v.length = D ∧ w.length = D ∧
        (∀ j, j < D → v.getD j 0 =
          ((p2.zip t2).map (fun e => |e.1.getD j 0 - e.2.getD j 0|)).sum
            / p2.length) ∧
        (∀ j, j < D → w.getD j 0 =
          ((p2.zip t2).map (fun e =>
            (e.1.getD j 0 - e.2.getD j 0) * (e.1.getD j 0 - e.2.getD j 0))).sum
            / p2.length)) := by
  constructor
  · intro hlen hne
    have htne : t ≠ [] := by
      intro h
      apply hne
      cases p with
      | nil => rfl
      | cons a l => rw [h] at hlen; simp at hlen
    have hzne : List.zipWith (fun a b => a - b) p t ≠ [] := by
      cases p with
      | nil => exact absurd rfl hne
      | cons a l => cases t with
        | nil => exact absurd rfl htne
        | cons b m => simp
    have hzlen : (List.zipWith (fun a b => a - b) p t).length = p.length := by
      rw [List.length_zipWith, hlen, Nat.min_self]
    have hqa : ((List.zipWith (· - ·) p t).map (fun x => |x|)).sum /
          ((((List.zipWith (· - ·) p t).map (fun x => |x|)).length : Nat) : ℚ) =
        ((p.zip t).map (fun e => |e.1 - e.2|)).sum / ((p.length : Nat) : ℚ) := by
      rw [zipWith_eq_map_zip, List.map_map]
      simp only [Function.comp_def, List.length_map, List.length_zip, hlen,
        Nat.min_self]
    have hqs : ((List.zipWith (· - ·) p t).map (fun x => x * x)).sum /
          ((((List.zipWith (· - ·) p t).map (fun x => x * x)).length : Nat) : ℚ) =
        ((p.zip t).map (fun e => (e.1 - e.2) * (e.1 - e.2))).sum
          / ((p.length : Nat) : ℚ) := by
      rw [zipWith_eq_map_zip, List.map_map]
      simp only [Function.comp_def, List.length_map, List.length_zip, hlen,
        Nat.min_self]
    constructor
    · refine ⟨_, rget_common_metrics_mae p t tag, ?_⟩
      rw [npMeanMV_of_ne_nil (by simpa using hzne)]
      show ((_ : ℚ) : ℝ) = _
      rw [hqa]
    · refine ⟨_, rget_common_metrics_rmse p t tag, ?_⟩
      rw [npSqrtMeanMV_of_ne_nil (by simpa using hzne)]
      show Real.sqrt ((_ : ℚ) : ℝ) = _
      rw [hqs]
  · intro hlen hp ht
    refine ⟨_, _, rfl, ?_, ?_, ?_, ?_⟩
    · simp [npMeanAxis0]
    · simp [npMeanAxis0]
    · intro j hj
      exact mean_axis0_entry p2 t2 (fun x => |x|) abs_zero D j hj hlen hp ht
    · intro j hj
      exact mean_axis0_entry p2 t2 (fun x => x * x) (mul_zero 0) D j hj hlen hp ht

/-- Witness for C3 at concrete inputs: `p = [1,3]`, `t = [0,1]` has
`mae = 3/2`, and the `(2,2)` input has column means `[2, 3]`. -/
theorem C3_witness :
    (∃ v, rget (common_metrics [1, 3] [0, 1] "") ("" ++ "mae") = some v ∧
      v.toReal = ((3 / 2 : ℚ) : ℝ)) ∧
    (∃ v w : List ℚ,
      common_metrics2 [[1, 2], [3, 4]] [[0, 0], [0, 0]] 2 "" =
        [("" ++ "mae", MV2.vnum v), ("" ++ "rmse", MV2.vroot w)] ∧
      v.getD 0 0 = 2 ∧ v.getD 1 0 = 3) := by
  constructor
  · obtain ⟨⟨v, hv, hr⟩, -⟩ :=
      (C3_kernel_mae_rmse [1, 3] [0, 1] [] [] 0 "").1 (by decide) (by decide)
    refine ⟨v, hv, ?_⟩
    rw [hr]
    norm_num [List.zip]
  · obtain ⟨v, w, heq, -, -, hv, hw⟩ :=
      (C3_kernel_mae_rmse [] [] [[1, 2], [3, 4]] [[0, 0], [0, 0]] 2 "").2
        (by decide) (by decide) (by decide)
    refine ⟨v, w, heq, ?_, ?_⟩
    · rw [hv 0 (by decide)]
      norm_num [List.zip]
    · rw [hv 1 (by decide)]
      norm_num [List.zip]

/-- C2 counterexample: two samples share the delta 3600 s (label 60 minutes).
The claimed behaviour — the kernel run once over the two-row slice — gives
`mae = (0 + 10)/2 = 5` for that bucket, but the segmenter's bucket holds 10:
the kernel ran per sample and the last sample overwrote the bucket. -/
theorem C2_counterexample :
    horizon_tag ⟨3600, 0, 1⟩ ⟨0, 0, 1⟩ = "forecast_horizon_60_minutes/" ∧
    horizon_tag ⟨7200, 0, 1⟩ ⟨3600, 0, 1⟩ = "forecast_horizon_60_minutes/" ∧
    rget (common_metrics [0, 10] [0, 0] "forecast_horizon_60_minutes/")
        ("forecast_horizon_60_minutes/" ++ "mae") = some (MV.num 5) ∧
    rget (compute_metrics_time_horizons [0, 10] [0, 0]
        [⟨3600, 0, 1⟩, ⟨7200, 0, 1⟩] [⟨0, 0, 1⟩, ⟨3600, 0, 1⟩])
        ("forecast_horizon_60_minutes/" ++ "mae") = some (MV.num 10) ∧
    MV.num (10 : ℚ) ≠ MV.num 5 := by
  refine ⟨rfl, rfl, ?_, ?_, by decide⟩
  · rw [rget_common_metrics_mae]
    have : npMeanMV ((List.zipWith (· - ·) [(0 : ℚ), 10] [0, 0]).map
        (fun x => |x|)) = MV.num ((|(0 : ℚ) - 0| + (|10 - 0| + 0)) / 2) := by
      rw [npMeanMV_of_ne_nil (by simp)]
      norm_num
    rw [this]
    norm_num
  · have h := rget_time_horizons_blocks [0, 10] [0, 0]
      [⟨3600, 0, 1⟩, ⟨7200, 0, 1⟩] [⟨0, 0, 1⟩, ⟨3600, 0, 1⟩] 2 1 (by decide)
      (fun j h1 h2 => absurd h1 (by omega))
    have habs : |([(0 : ℚ), 10].getD 1 0) - ([(0 : ℚ), 0].getD 1 0)| =
        (10 : ℚ) := by norm_num
    rw [habs] at h
    rw [compute_metrics_time_horizons_eq]
    exact h

/-- C2 amended: the forecast-horizon segmenter produces exactly one bucket
per distinct whole-minute label `(timestamp − start_time).seconds // 60`
occurring among the samples; but the metric kernel is invoked once *per
sample* on that single sample (not once over the multi-row slice), so when
several samples share a label the bucket holds the metrics of the last such
sample. -/
theorem C2_amended_time_horizons (p t : List ℚ) (dts st : List TS) :
    (∀ k, k ∈ rkeys (compute_metrics_time_horizons p t dts st) ↔
      ∃ i, i < dts.length ∧
        (k = horizon_tag (dts.getD i default) (st.getD i default) ++ "mae" ∨
         k = horizon_tag (dts.getD i default) (st.getD i default) ++ "rmse")) ∧
    (∀ i, i < dts.length →
      (∀ j, i < j → j < dts.length →
        horizon_tag (dts.getD j default) (st.getD j default) ≠
          horizon_tag (dts.getD i default) (st.getD i default)) →
      rget (compute_metrics_time_horizons p t dts st)
          (horizon_tag (dts.getD i default) (st.getD i default) ++ "mae") =
        some (MV.num |p.getD i 0 - t.getD i 0|)) := by
  constructor
  · intro k
    exact mem_rkeys_time_horizons p t dts st
  · intro i hi hlast
    rw [compute_metrics_time_horizons_eq]
    exact rget_time_horizons_blocks p t dts st dts.length i hi hlast

/-- Witness for C2's amended statement at concrete inputs. -/
theorem C2_witness :
    rget (compute_metrics_time_horizons [1, 2] [0, 0]
        [⟨60, 0, 1⟩, ⟨120, 0, 1⟩] [⟨0, 0, 1⟩, ⟨0, 0, 1⟩])
      (horizon_tag ⟨120, 0, 1⟩ ⟨0, 0, 1⟩ ++ "mae") = some (MV.num 2) := by
  have h := (C2_amended_time_horizons [1, 2] [0, 0]
      [⟨60, 0, 1⟩, ⟨120, 0, 1⟩] [⟨0, 0, 1⟩, ⟨0, 0, 1⟩]).2 1 (by decide)
      (fun j h1 h2 => by simp only [List.length_cons, List.length_nil] at h2; exact absurd h1 (by omega))
  have habs : |(List.getD [(1 : ℚ), 2] 1 0) - (List.getD [(0 : ℚ), 0] 1 0)| =
      (2 : ℚ) := by norm_num
  rw [habs] at h
  exact h

/-- With a non-negative threshold and the default sigma, `count_large_errors`
builds the single threshold-named binding counting the strictly-greater
errors. -/
theorem cle_dict_key (p t : List ℚ) (th : ℚ) (h : 0 ≤ th) :
    cle_dict p t th (-1) "" =
      [("large_error_count_threshold_" ++ qstr th,
        MV.cnt (((List.zipWith (· - ·) p t).map (fun x => |x|)).filter
          (fun e => th < e)).length)] := by
  simp only [cle_dict, if_pos h]
  rw [show ((("" ++ "large_error_count_") ++ "threshold") ++ "_") =
    "large_error_count_threshold_" from by decide]

/-- C7: for every threshold `th ≥ 0`, supplied as the scalar `thresholds`
argument or as a member of the threshold list, the aggregation pass emits the
binding `large_error_count_threshold_<th> ↦ #{samples with |p − t| > th}`
(strictly greater), and the final `compute_metrics` record carries the same
binding under the step-7 prefix `tag + "/"`. -/
theorem C7_threshold_count_key (p t : List ℚ) (dts st : List TS) (th : ℚ)
    (qs : List ℚ) (hs ys : List (String × List Nat)) (hth : 0 ≤ th) :
    ("large_error_count_threshold_" ++ qstr th,
        MV.cnt (((List.zipWith (· - ·) p t).map (fun x => |x|)).filter
          (fun e => th < e)).length) ∈
      metrics_pass p t dts st (Thresholds.scalar th) hs ys ∧
    (th ∈ qs →
      ("large_error_count_threshold_" ++ qstr th,
          MV.cnt (((List.zipWith (· - ·) p t).map (fun x => |x|)).filter
            (fun e => th < e)).length) ∈
        metrics_pass p t dts st (Thresholds.list qs) hs ys) ∧
    (∀ (gse : TS → ℚ → ℚ → ℚ) (fbn : Bool) (tag : String) (lat lon spn : ℚ)
      (r : Rec),
      compute_metrics gse p t dts st fbn tag (Thresholds.scalar th) hs ys
          lat lon spn = Except.ok r →
      (tag ++ "/" ++ ("large_error_count_threshold_" ++ qstr th),
        MV.cnt (((List.zipWith (· - ·) p t).map (fun x => |x|)).filter
          (fun e => th < e)).length) ∈ r) := by
  have hmem : ("large_error_count_threshold_" ++ qstr th,
      MV.cnt (((List.zipWith (· - ·) p t).map (fun x => |x|)).filter
        (fun e => th < e)).length) ∈
      metrics_pass p t dts st (Thresholds.scalar th) hs ys := by
    rw [metrics_pass_eq]
    apply List.mem_append_right
    show _ ∈ (if 0 ≤ th then cle_dict p t th (-1) "" else [])
    rw [if_pos hth, cle_dict_key p t th hth]
    exact List.mem_singleton.2 rfl
  refine ⟨hmem, ?_, ?_⟩
  · intro hq
    rw [metrics_pass_eq]
    apply List.mem_append_right
    show _ ∈ ((qs.map (fun th => cle_dict p t th (-1) "")).flatten : Rec)
    apply List.mem_flatten.2
    refine ⟨cle_dict p t th (-1) "", List.mem_map_of_mem _ hq, ?_⟩
    rw [cle_dict_key p t th hth]
    exact List.mem_singleton.2 rfl
  · intro gse fbn tag lat lon spn r h
    by_cases hlen : p.length = t.length ∧ t.length = dts.length ∧
        dts.length = st.length
    · rw [compute_metrics, if_pos hlen] at h
      simp only [Except.ok.injEq] at h
      rw [← h]
      have hin : ("large_error_count_threshold_" ++ qstr th,
          MV.cnt (((List.zipWith (· - ·) p t).map (fun x => |x|)).filter
            (fun e => th < e)).length) ∈
          (if fbn then
            rupdate (metrics_pass p t dts st (Thresholds.scalar th) hs ys)
              (prefixAll "no_night/"
                (metrics_pass (filter_night gse p t dts lat lon spn).1
                  (filter_night gse p t dts lat lon spn).2.1
                  (filter_night gse p t dts lat lon spn).2.2 st
                  (Thresholds.scalar th) hs ys))
          else metrics_pass p t dts st (Thresholds.scalar th) hs ys) := by
        cases fbn with
        | false => simpa using hmem
        | true => simp only [if_pos]; exact List.mem_append_left _ hmem
      exact List.mem_map_of_mem _ hin
    · rw [compute_metrics, if_neg hlen] at h
      exact Except.noConfusion h

/-- Witness for C7: threshold 1000 with error magnitudes `[500, 1500, 2500]`
gives `large_error_count_threshold_1000 = 2`, whether the threshold is the
scalar argument, a member of the list `[1000, 2000]`, or looked up in the
final tag-prefixed record. -/
theorem C7_witness :
    ("large_error_count_threshold_1000", MV.cnt 2) ∈
        metrics_pass [500, 1500, 2500] [0, 0, 0]
          [⟨0, 0, 1⟩, ⟨0, 0, 1⟩, ⟨0, 0, 1⟩] [⟨0, 0, 1⟩, ⟨0, 0, 1⟩, ⟨0, 0, 1⟩]
          (Thresholds.scalar 1000) default_hour_split default_year_split ∧
      ("large_error_count_threshold_1000", MV.cnt 2) ∈
        metrics_pass [500, 1500, 2500] [0, 0, 0]
          [⟨0, 0, 1⟩, ⟨0, 0, 1⟩, ⟨0, 0, 1⟩] [⟨0, 0, 1⟩, ⟨0, 0, 1⟩, ⟨0, 0, 1⟩]
          (Thresholds.list [1000, 2000]) default_hour_split default_year_split ∧
      ("t" ++ "/" ++ "large_error_count_threshold_1000", MV.cnt 2) ∈
        ((compute_metrics (fun _ _ _ => (0 : ℚ)) [500, 1500, 2500] [0, 0, 0]
          [⟨0, 0, 1⟩, ⟨0, 0, 1⟩, ⟨0, 0, 1⟩] [⟨0, 0, 1⟩, ⟨0, 0, 1⟩, ⟨0, 0, 1⟩]
          false "t" (Thresholds.scalar 1000) default_hour_split
          default_year_split 0 0 (-5)).toOption.getD []) := by
  obtain ⟨h1, h2, h3⟩ := C7_threshold_count_key [500, 1500, 2500] [0, 0, 0]
    [⟨0, 0, 1⟩, ⟨0, 0, 1⟩, ⟨0, 0, 1⟩] [⟨0, 0, 1⟩, ⟨0, 0, 1⟩, ⟨0, 0, 1⟩] 1000
    [1000, 2000] default_hour_split default_year_split (by decide)
  have hc : (((List.zipWith (· - ·) [(500 : ℚ), 1500, 2500] [0, 0, 0]).map
      (fun x => |x|)).filter (fun e => (1000 : ℚ) < e)).length = 2 := by
    norm_num
  have hk : "large_error_count_threshold_" ++ qstr 1000 =
      "large_error_count_threshold_1000" := by decide
  rw [hc, hk] at h1
  have h2' := h2 (by decide)
  rw [hc, hk] at h2'
  have h3' := h3 (fun _ _ _ => (0 : ℚ)) false "t" 0 0 (-5)
    ((compute_metrics (fun _ _ _ => (0 : ℚ)) [500, 1500, 2500] [0, 0, 0]
      [⟨0, 0, 1⟩, ⟨0, 0, 1⟩, ⟨0, 0, 1⟩] [⟨0, 0, 1⟩, ⟨0, 0, 1⟩, ⟨0, 0, 1⟩]
      false "t" (Thresholds.scalar 1000) default_hour_split
      default_year_split 0 0 (-5)).toOption.getD []) rfl
  rw [hc, hk] at h3'
  exact ⟨h1, h2', h3'⟩

/-- C9: with `filter_by_night = False` the aggregator's result does not
depend on the solar-position function, the latitude, the longitude or the
night threshold — the night machinery is never consulted, so two runs
differing only in those arguments return identical records. -/
theorem C9_night_arguments_unused (p t : List ℚ) (dts st : List TS)
    (tag : String) (ths : Thresholds) (hs ys : List (String × List Nat))
    (gse₁ gse₂ : TS → ℚ → ℚ → ℚ) (lat₁ lon₁ spn₁ lat₂ lon₂ spn₂ : ℚ) :
    compute_metrics gse₁ p t dts st false tag ths hs ys lat₁ lon₁ spn₁ =
      compute_metrics gse₂ p t dts st false tag ths hs ys lat₂ lon₂ spn₂ := rfl

/-- C8: every hour below 24 lies in exactly one default time-of-day bucket
and every month 1–12 in exactly one default time-of-year bucket; the bucket
sample counts selected by the segmenters therefore sum to `N` on each axis;
and every key either segmenter emits comes from a bucket whose index list is
non-empty — a bucket matching zero samples emits no keys at all. -/
theorem C8_partition_and_empty_buckets (p t : List ℚ) (dts : List TS) :
    (∀ h : Nat, h < 24 →
      (default_hour_split.filter (fun sp => decide (h ∈ sp.2))).length = 1) ∧
    (∀ m : Nat, m < 13 → 0 < m →
      (default_year_split.filter (fun sp => decide (m ∈ sp.2))).length = 1) ∧
    ((∀ d ∈ dts, d.hour < 24) →
      (default_hour_split.map (fun sp => (hourIdx dts sp.2).length)).sum =
        dts.length) ∧
    ((∀ d ∈ dts, 0 < d.month ∧ d.month < 13) →
      (default_year_split.map (fun sp => (monthIdx dts sp.2).length)).sum =
        dts.length) ∧
    (∀ k, k ∈ rkeys (compute_metrics_part_of_day p t dts default_hour_split) ↔
      ∃ sp ∈ default_hour_split, 0 < (hourIdx dts sp.2).length ∧
        (k = sp.1 ++ "/" ++ "mae" ∨ k = sp.1 ++ "/" ++ "rmse")) ∧
    (∀ k, k ∈ rkeys (compute_metrics_part_of_year p t dts default_year_split) ↔
      ∃ sp ∈ default_year_split, 0 < (monthIdx dts sp.2).length ∧
        (k = sp.1 ++ "/" ++ "mae" ∨ k = sp.1 ++ "/" ++ "rmse")) := by
  refine ⟨by decide, by decide, ?_, ?_, ?_, ?_⟩
  · intro hh
    have hmap : default_hour_split.map (fun sp => (hourIdx dts sp.2).length) =
        default_hour_split.map (fun sp =>
          (dts.filter (fun d => decide (d.hour ∈ sp.2))).length) :=
      List.map_congr_left (fun sp _ => by
        show ((List.range dts.length).filter
            (fun i => decide ((dts.getD i default).hour ∈ sp.2))).length = _
        exact length_idxFilter (fun d => decide (d.hour ∈ sp.2)) dts)
    rw [hmap]
    exact sum_split_counts default_hour_split (fun d => d.hour)
      (fun n => n < 24) (by decide) dts hh
  · intro hm
    have hmap : default_year_split.map (fun sp => (monthIdx dts sp.2).length) =
        default_year_split.map (fun sp =>
          (dts.filter (fun d => decide (d.month ∈ sp.2))).length) :=
      List.map_congr_left (fun sp _ => by
        show ((List.range dts.length).filter
            (fun i => decide ((dts.getD i default).month ∈ sp.2))).length = _
        exact length_idxFilter (fun d => decide (d.month ∈ sp.2)) dts)
    rw [hmap]
    have hone : ∀ n : Nat, n < 13 → 0 < n →
        (default_year_split.map (fun sp => if n ∈ sp.2 then 1 else 0)).sum = 1 :=
      by decide
    exact sum_split_counts default_year_split (fun d => d.month)
      (fun n => 0 < n ∧ n < 13) (fun n hn => hone n hn.2 hn.1) dts hm
  · intro k
    exact mem_rkeys_part_of_day p t dts default_hour_split
  · intro k
    exact mem_rkeys_part_of_year p t dts default_year_split

/-- Witness for C8 at a concrete two-sample series (hours 5 and 23, months 7
and 12): both axes' bucket counts sum to 2. -/
theorem C8_witness :
    (default_hour_split.filter (fun sp => decide (5 ∈ sp.2))).length = 1 ∧
    (default_year_split.filter (fun sp => decide (12 ∈ sp.2))).length = 1 ∧
    (default_hour_split.map (fun sp =>
      (hourIdx [⟨0, 5, 7⟩, ⟨0, 23, 12⟩] sp.2).length)).sum = 2 ∧
    (default_year_split.map (fun sp =>
      (monthIdx [⟨0, 5, 7⟩, ⟨0, 23, 12⟩] sp.2).length)).sum = 2 := by
  obtain ⟨h1, h2, h3, h4, -, -⟩ :=
    C8_partition_and_empty_buckets [] [] [⟨0, 5, 7⟩, ⟨0, 23, 12⟩]
  exact ⟨h1 5 (by decide), h2 12 (by decide) (by decide),
    h3 (by decide), h4 (by decide)⟩

/-- C1 counterexample: with per-sample start times and the first sample
filtered out as night, the claimed key set is wrong.  Steps 1–5 recomputed on
the filtered *subset* (start times included, `night_pass_spec`) contain the
horizon key `forecast_horizon_120_minutes/mae`, so under the claim the final
record would contain `t/no_night/forecast_horizon_120_minutes/mae`; but
`compute_metrics` pairs the filtered datetimes with the *unfiltered*
start-time array, so that key is absent (the night pass instead produces the
180-minute bucket). -/
theorem C1_counterexample :
    ("forecast_horizon_120_minutes/" ++ "mae") ∈ rkeys (night_pass_spec
        (fun d _ _ => if d.epoch = 3600 then (-10 : ℚ) else 10)
        [1, 2] [0, 0] [⟨3600, 12, 6⟩, ⟨10800, 12, 6⟩]
        [⟨0, 12, 6⟩, ⟨3600, 12, 6⟩] (Thresholds.scalar (-1))
        default_hour_split default_year_split 0 0 (-5)) ∧
    (compute_metrics (fun d _ _ => if d.epoch = 3600 then (-10 : ℚ) else 10)
        [1, 2] [0, 0] [⟨3600, 12, 6⟩, ⟨10800, 12, 6⟩]
        [⟨0, 12, 6⟩, ⟨3600, 12, 6⟩] true "t" (Thresholds.scalar (-1))
        default_hour_split default_year_split 0 0 (-5)).toOption ≠ none ∧
    ("t" ++ "/" ++ ("no_night/" ++ ("forecast_horizon_120_minutes/" ++ "mae")))
        ∉ rkeys ((compute_metrics
          (fun d _ _ => if d.epoch = 3600 then (-10 : ℚ) else 10)
          [1, 2] [0, 0] [⟨3600, 12, 6⟩, ⟨10800, 12, 6⟩]
          [⟨0, 12, 6⟩, ⟨3600, 12, 6⟩] true "t" (Thresholds.scalar (-1))
          default_hour_split default_year_split 0 0 (-5)).toOption.getD []) ∧
    ("t" ++ "/" ++ ("no_night/" ++ ("forecast_horizon_180_minutes/" ++ "mae")))
        ∈ rkeys ((compute_metrics
          (fun d _ _ => if d.epoch = 3600 then (-10 : ℚ) else 10)
          [1, 2] [0, 0] [⟨3600, 12, 6⟩, ⟨10800, 12, 6⟩]
          [⟨0, 12, 6⟩, ⟨3600, 12, 6⟩] true "t" (Thresholds.scalar (-1))
          default_hour_split default_year_split 0 0 (-5)).toOption.getD []) := by
  decide

/-- C1 amended: when `filter_by_night` is set, the night pass recomputes the
kernel, time-of-day, time-of-year, forecast-horizon and large-error steps on
the night-filtered predictions/targets/datetimes but pairs them positionally
with the original *unfiltered* start-time array; every key of that pass is
prefixed `no_night/` first and every key of the merged record is prefixed
`<tag>/` afterwards, so each final key is `<tag>/no_night/<key>` for exactly
the night-pass keys and `<tag>/<key>` for the base-pass keys. -/
theorem C1_amended_two_level_prefixing (gse : TS → ℚ → ℚ → ℚ)
    (p t : List ℚ) (dts st : List TS) (tag : String) (ths : Thresholds)
    (hs ys : List (String × List Nat)) (lat lon spn : ℚ) (r : Rec)
    (h : compute_metrics gse p t dts st true tag ths hs ys lat lon spn =
      Except.ok r) :
    ∀ k, k ∈ rkeys r ↔
      ((∃ k', k' ∈ rkeys (metrics_pass
          (filter_night gse p t dts lat lon spn).1
          (filter_night gse p t dts lat lon spn).2.1
          (filter_night gse p t dts lat lon spn).2.2 st ths hs ys) ∧
        k = tag ++ "/" ++ ("no_night/" ++ k')) ∨
      (∃ k', k' ∈ rkeys (metrics_pass p t dts st ths hs ys) ∧
        k = tag ++ "/" ++ k')) := by
  intro k
  by_cases hlen : p.length = t.length ∧ t.length = dts.length ∧
      dts.length = st.length
  · rw [compute_metrics, if_pos hlen] at h
    simp only [Except.ok.injEq, if_pos] at h
    rw [← h, mem_rkeys_prefixAll]
    constructor
    · rintro ⟨k₀, hk₀, rfl⟩
      rcases mem_rkeys_append.1 hk₀ with hbase | hnight
      · exact Or.inr ⟨k₀, hbase, rfl⟩
      · rcases mem_rkeys_prefixAll.1 hnight with ⟨k', hk', rfl⟩
        exact Or.inl ⟨k', hk', rfl⟩
    · rintro (⟨k', hk', rfl⟩ | ⟨k', hk', rfl⟩)
      · exact ⟨"no_night/" ++ k',
          mem_rkeys_append.2 (Or.inr (mem_rkeys_prefixAll.2 ⟨k', hk', rfl⟩)), rfl⟩
      · exact ⟨k', mem_rkeys_append.2 (Or.inl hk'), rfl⟩
  · rw [compute_metrics, if_neg hlen] at h
    exact Except.noConfusion h

/-- Witness for C1's amended statement: at a concrete night-filtered call the
base-pass key `mae` appears in the final record as `t/mae`. -/
theorem C1_witness :
    ("t" ++ "/" ++ "mae") ∈ rkeys ((compute_metrics (fun _ _ _ => (0 : ℚ))
      [1] [0] [⟨0, 0, 1⟩] [⟨0, 0, 1⟩] true "t" (Thresholds.scalar (-1))
      default_hour_split default_year_split 0 0 (-5)).toOption.getD []) := by
  have h := C1_amended_two_level_prefixing (fun _ _ _ => (0 : ℚ))
    [1] [0] [⟨0, 0, 1⟩] [⟨0, 0, 1⟩] "t" (Thresholds.scalar (-1))
    default_hour_split default_year_split 0 0 (-5)
    ((compute_metrics (fun _ _ _ => (0 : ℚ)) [1] [0] [⟨0, 0, 1⟩] [⟨0, 0, 1⟩]
      true "t" (Thresholds.scalar (-1)) default_hour_split default_year_split
      0 0 (-5)).toOption.getD []) rfl
  exact (h ("t" ++ "/" ++ "mae")).2 (Or.inr ⟨"mae", by decide, rfl⟩)

end OcfMlMetrics
